import Mathlib

/-!
Shallow embedding of share_home_server (src/main.rs), a Rocket HTTP server that
lists the home directory tree and accepts multipart file uploads.

Conventions of the embedding:
* a filesystem path is a list of segments (`Path := List String`);
* fallible library calls are `Except`/`Option` values supplied by the
  environment; a Rust `unwrap()` panic is modelled as `Option.none` of the
  whole computation;
* the multipart request body is represented by the denotation of parsing it
  with the extracted boundary: `Except String (List MultipartEntry)`
  (`Multipart::with_body(..).into_entry().into_result()` then takes the head);
* the effect of `entry.data.save().with_path(p)` on disk is modelled by a
  `SaveBehavior` chosen by the environment together with an explicit
  filesystem map `Path → Option (List Nat)` (file contents as bytes);
* `dirs::home_dir().unwrap()` reads the ambient environment; within one
  process the value is fixed, so the main definitions take it as the
  parameter `home`; the per-call re-reading is modelled separately in
  `handleRootReads` for the root-constancy claim.
-/

namespace ShareHome

abbrev Path := List String

abbrev IoErr := String

/-- HTTP statuses used by the handlers (rocket::http::Status). -/
def Status.BadRequest : Nat := 400

/-- HTTP status 500 (rocket::http::Status::InternalServerError). -/
def Status.InternalServerError : Nat := 500

/-- rocket::response::status::Custom: a status code paired with a plain-text body. -/
structure Custom where
  status : Nat
  body : String
deriving DecidableEq

/-- One part of a multipart/form-data body: the declared filename from its
Content-Disposition header (optional) and its raw byte data. -/
structure MultipartEntry where
  filename : Option String
  data : List Nat
deriving DecidableEq

/-- multipart::server::save::PartialReason. -/
inductive PartialReason where
  | CountLimit
  | SizeLimit
  | IoError (e : String)
  | Utf8Error
deriving DecidableEq

/-- Outcome of entry.data.save().with_path(path), i.e.
multipart::server::save::SaveResult, enriched with the number of bytes the
library managed to write before stopping (so the disk effect is expressible).
Full writes the whole data; Partial and Error leave a truncated write of the
first written bytes. -/
inductive SaveBehavior where
  | Full
  | Partial (written : Nat) (reason : PartialReason)
  | Error (written : Nat) (msg : String)
deriving DecidableEq

/-- The filesystem, as a map from paths to file contents. -/
abbrev Fs := Path → Option (List Nat)

/-- Embedding of resolve_post (src/main.rs lines 17-45).
ctParams are the Content-Type parameters; body is the denotation of parsing
the request body as a multipart stream with the extracted boundary; save is
the behaviour of the streaming save; fs is the disk before the request.
Returns the handler result together with the disk after the request. -/
def resolve_post (home : Path) (ctParams : List (String × String)) (path : Path)
    (body : Except String (List MultipartEntry)) (save : SaveBehavior) (fs : Fs) :
    Except Custom String × Fs :=
  match ctParams.find? (fun kv => kv.fst == "boundary") with
  | none => (Except.error ⟨Status.BadRequest, "Content-Type: form-data without boundary"⟩, fs)
  | some _ =>
    match body with
    | Except.error err => (Except.error ⟨Status.InternalServerError, err⟩, fs)
    | Except.ok entries =>
      match entries.head? with
      | none => (Except.error ⟨Status.BadRequest, "Request body don't include any entry"⟩, fs)
      | some entry =>
        match entry.filename with
        | none => (Except.error ⟨Status.BadRequest, "Request body don't include filename"⟩, fs)
        | some name =>
          let p := home ++ path ++ [name]
          match save with
          | SaveBehavior.Full =>
            (Except.ok "File saved", fun q => if q = p then some entry.data else fs q)
          | SaveBehavior.Partial k reason =>
            (Except.error (match reason with
              | PartialReason.CountLimit =>
                ⟨Status.InternalServerError, "The count limit for files in the request was hit."⟩
              | PartialReason.SizeLimit =>
                ⟨Status.InternalServerError, "The size limit for an individual file was hit."⟩
              | PartialReason.IoError e => ⟨Status.InternalServerError, e⟩
              | PartialReason.Utf8Error => ⟨Status.InternalServerError, "UTF convert err"⟩),
             fun q => if q = p then some (entry.data.take k) else fs q)
          | SaveBehavior.Error k msg =>
            (Except.error ⟨Status.InternalServerError, msg⟩,
             fun q => if q = p then some (entry.data.take k) else fs q)

/-- C2: for every POST upload, the pre-save failure checks apply in order,
first applicable failure winning: missing boundary parameter gives 400
naming the missing boundary regardless of the body; with a boundary, an
unparseable body gives 500 with the parse detail; a parsed stream with zero
entries gives 400 naming the missing entry; a first entry with no declared
filename gives 400 naming the missing filename. -/
theorem upload_precheck_order (home path : Path) (ct : List (String × String))
    (body : Except String (List MultipartEntry)) (save : SaveBehavior) (fs : Fs) :
    (ct.find? (fun kv => kv.fst == "boundary") = none →
      (resolve_post home ct path body save fs).1 =
        Except.error ⟨400, "Content-Type: form-data without boundary"⟩) ∧
    (∀ bv, ct.find? (fun kv => kv.fst == "boundary") = some bv →
      (∀ err, body = Except.error err →
        (resolve_post home ct path body save fs).1 = Except.error ⟨500, err⟩) ∧
      (body = Except.ok [] →
        (resolve_post home ct path body save fs).1 =
          Except.error ⟨400, "Request body don't include any entry"⟩) ∧
      (∀ entry rest, body = Except.ok (entry :: rest) → entry.filename = none →
        (resolve_post home ct path body save fs).1 =
          Except.error ⟨400, "Request body don't include filename"⟩)) := by
  refine ⟨fun h => ?_, fun bv hbv => ⟨fun err herr => ?_, fun hnil => ?_, fun entry rest hcons hname => ?_⟩⟩
  · simp [resolve_post, h, Status.BadRequest]
  · simp [resolve_post, hbv, herr, Status.InternalServerError]
  · simp [resolve_post, hbv, hnil, Status.BadRequest]
  · simp [resolve_post, hbv, hcons, hname, Status.BadRequest]

/-- Closed instance of upload_precheck_order: all four failure branches hit at
concrete inputs. -/
theorem upload_precheck_order_witness :
    ((resolve_post ["h"] [("charset", "utf8")] [] (Except.ok []) SaveBehavior.Full (fun _ => none)).1 =
      Except.error ⟨400, "Content-Type: form-data without boundary"⟩) ∧
    ((resolve_post ["h"] [("boundary", "X")] [] (Except.error "bad stream") SaveBehavior.Full (fun _ => none)).1 =
      Except.error ⟨500, "bad stream"⟩) ∧
    ((resolve_post ["h"] [("boundary", "X")] [] (Except.ok []) SaveBehavior.Full (fun _ => none)).1 =
      Except.error ⟨400, "Request body don't include any entry"⟩) ∧
    ((resolve_post ["h"] [("boundary", "X")] []
        (Except.ok [⟨none, [1, 2]⟩]) SaveBehavior.Full (fun _ => none)).1 =
      Except.error ⟨400, "Request body don't include filename"⟩) := by
  refine ⟨?_, ?_, ?_, ?_⟩
  · exact (upload_precheck_order ["h"] [] [("charset", "utf8")] (Except.ok [])
      SaveBehavior.Full (fun _ => none)).1 (by decide)
  · exact ((upload_precheck_order ["h"] [] [("boundary", "X")] (Except.error "bad stream")
      SaveBehavior.Full (fun _ => none)).2 ("boundary", "X") (by decide)).1 "bad stream" rfl
  · exact ((upload_precheck_order ["h"] [] [("boundary", "X")] (Except.ok [])
      SaveBehavior.Full (fun _ => none)).2 ("boundary", "X") (by decide)).2.1 rfl
  · exact ((upload_precheck_order ["h"] [] [("boundary", "X")]
      (Except.ok [⟨none, [1, 2]⟩]) SaveBehavior.Full (fun _ => none)).2
      ("boundary", "X") (by decide)).2.2 ⟨none, [1, 2]⟩ [] rfl rfl

/-- C3: once the save step runs, a full save answers 200 with body
"File saved", and each failure is classified: count limit, size limit, I/O
fault and encoding fault each give 500 with a message naming that reason,
and any other save-time error gives 500 with its detail; the four-way
partial-failure granularity is preserved in the visible result. -/
theorem upload_save_classification (home path : Path) (ct : List (String × String))
    (entry : MultipartEntry) (rest : List MultipartEntry) (name : String) (fs : Fs)
    (bv : String × String)
    (hbv : ct.find? (fun kv => kv.fst == "boundary") = some bv)
    (hname : entry.filename = some name) :
    ((resolve_post home ct path (Except.ok (entry :: rest)) SaveBehavior.Full fs).1 =
      Except.ok "File saved") ∧
    (∀ k, (resolve_post home ct path (Except.ok (entry :: rest))
        (SaveBehavior.Partial k PartialReason.CountLimit) fs).1 =
      Except.error ⟨500, "The count limit for files in the request was hit."⟩) ∧
    (∀ k, (resolve_post home ct path (Except.ok (entry :: rest))
        (SaveBehavior.Partial k PartialReason.SizeLimit) fs).1 =
      Except.error ⟨500, "The size limit for an individual file was hit."⟩) ∧
    (∀ k e, (resolve_post home ct path (Except.ok (entry :: rest))
        (SaveBehavior.Partial k (PartialReason.IoError e)) fs).1 =
      Except.error ⟨500, e⟩) ∧
    (∀ k, (resolve_post home ct path (Except.ok (entry :: rest))
        (SaveBehavior.Partial k PartialReason.Utf8Error) fs).1 =
      Except.error ⟨500, "UTF convert err"⟩) ∧
    (∀ k msg, (resolve_post home ct path (Except.ok (entry :: rest))
        (SaveBehavior.Error k msg) fs).1 =
      Except.error ⟨500, msg⟩) := by
  refine ⟨?_, fun k => ?_, fun k => ?_, fun k e => ?_, fun k => ?_, fun k msg => ?_⟩ <;>
    simp [resolve_post, hbv, hname, Status.InternalServerError]

/-- Closed instance of upload_save_classification at a concrete request. -/
theorem upload_save_classification_witness :
    ((resolve_post ["h"] [("boundary", "X")] ["docs"]
        (Except.ok [⟨some "a.txt", [7]⟩]) SaveBehavior.Full (fun _ => none)).1 =
      Except.ok "File saved") ∧
    (∀ k, (resolve_post ["h"] [("boundary", "X")] ["docs"]
        (Except.ok [⟨some "a.txt", [7]⟩]) (SaveBehavior.Partial k PartialReason.CountLimit)
        (fun _ => none)).1 =
      Except.error ⟨500, "The count limit for files in the request was hit."⟩) ∧
    (∀ k, (resolve_post ["h"] [("boundary", "X")] ["docs"]
        (Except.ok [⟨some "a.txt", [7]⟩]) (SaveBehavior.Partial k PartialReason.SizeLimit)
        (fun _ => none)).1 =
      Except.error ⟨500, "The size limit for an individual file was hit."⟩) ∧
    (∀ k e, (resolve_post ["h"] [("boundary", "X")] ["docs"]
        (Except.ok [⟨some "a.txt", [7]⟩]) (SaveBehavior.Partial k (PartialReason.IoError e))
        (fun _ => none)).1 =
      Except.error ⟨500, e⟩) ∧
    (∀ k, (resolve_post ["h"] [("boundary", "X")] ["docs"]
        (Except.ok [⟨some "a.txt", [7]⟩]) (SaveBehavior.Partial k PartialReason.Utf8Error)
        (fun _ => none)).1 =
      Except.error ⟨500, "UTF convert err"⟩) ∧
    (∀ k msg, (resolve_post ["h"] [("boundary", "X")] ["docs"]
        (Except.ok [⟨some "a.txt", [7]⟩]) (SaveBehavior.Error k msg) (fun _ => none)).1 =
      Except.error ⟨500, msg⟩) := by
  exact upload_save_classification ["h"] ["docs"] [("boundary", "X")]
    ⟨some "a.txt", [7]⟩ [] "a.txt" (fun _ => none) ("boundary", "X") (by decide) rfl

/-- C7: a fully successful upload writes exactly one file, at
home ++ path ++ [name], overwriting whatever was there, with contents
byte-identical to the part's data; every other path is untouched; the reply
is exactly "File saved"; and entries after the first are ignored. -/
theorem upload_success_effect (home path : Path) (ct : List (String × String))
    (entry : MultipartEntry) (rest : List MultipartEntry) (name : String) (fs : Fs)
    (bv : String × String)
    (hbv : ct.find? (fun kv => kv.fst == "boundary") = some bv)
    (hname : entry.filename = some name) :
    ((resolve_post home ct path (Except.ok (entry :: rest)) SaveBehavior.Full fs).1 =
      Except.ok "File saved") ∧
    ((resolve_post home ct path (Except.ok (entry :: rest)) SaveBehavior.Full fs).2
      (home ++ path ++ [name]) = some entry.data) ∧
    (∀ q, q ≠ home ++ path ++ [name] →
      (resolve_post home ct path (Except.ok (entry :: rest)) SaveBehavior.Full fs).2 q = fs q) ∧
    (∀ rest2 save,
      resolve_post home ct path (Except.ok (entry :: rest2)) save fs =
      resolve_post home ct path (Except.ok (entry :: rest)) save fs) := by
  refine ⟨?_, ?_, fun q hq => ?_, fun rest2 save => ?_⟩
  · simp [resolve_post, hbv, hname]
  · simp [resolve_post, hbv, hname]
  · simp [resolve_post, hbv, hname]
    intro h
    exact absurd (h.trans (List.append_assoc home path [name]).symm) hq
  · simp [resolve_post, hbv, hname]

/-- Closed instance of upload_success_effect: uploading report.txt to docs/
over an existing file of other content. -/
theorem upload_success_effect_witness :
    ((resolve_post ["home"] [("boundary", "X")] ["docs"]
        (Except.ok [⟨some "report.txt", [1, 2, 3]⟩, ⟨some "ignored.txt", [9]⟩])
        SaveBehavior.Full
        (fun q => if q = ["home", "docs", "report.txt"] then some [5] else none)).1 =
      Except.ok "File saved") ∧
    ((resolve_post ["home"] [("boundary", "X")] ["docs"]
        (Except.ok [⟨some "report.txt", [1, 2, 3]⟩, ⟨some "ignored.txt", [9]⟩])
        SaveBehavior.Full
        (fun q => if q = ["home", "docs", "report.txt"] then some [5] else none)).2
      ["home", "docs", "report.txt"] = some [1, 2, 3]) := by
  have h := upload_success_effect ["home"] ["docs"] [("boundary", "X")]
    ⟨some "report.txt", [1, 2, 3]⟩ [⟨some "ignored.txt", [9]⟩] "report.txt"
    (fun q => if q = ["home", "docs", "report.txt"] then some [5] else none)
    ("boundary", "X") (by decide) rfl
  exact ⟨h.1, h.2.1⟩

/-- C10: every 400 BadRequest outcome of the upload handler (missing
boundary, no entry, missing filename) leaves the filesystem unchanged: the
disk after the request equals the disk before it. -/
theorem upload_badrequest_no_write (home path : Path) (ct : List (String × String))
    (body : Except String (List MultipartEntry)) (save : SaveBehavior) (fs : Fs)
    (c : Custom)
    (hres : (resolve_post home ct path body save fs).1 = Except.error c)
    (h400 : c.status = 400) :
    (resolve_post home ct path body save fs).2 = fs := by
  unfold resolve_post at hres ⊢
  cases hfind : ct.find? (fun kv => kv.fst == "boundary") with
  | none => simp [hfind]
  | some bv =>
    cases body with
    | error err => simp [hfind]
    | ok entries =>
      cases entries with
      | nil => simp [hfind]
      | cons entry rest =>
        cases hname : entry.filename with
        | none => simp [hfind, hname]
        | some name =>
          exfalso
          cases save with
          | Full => simp [hfind, hname] at hres
          | Partial k reason =>
            cases reason <;> simp [hfind, hname, Status.InternalServerError] at hres <;>
              subst hres <;> simp at h400
          | Error k msg =>
            simp [hfind, hname, Status.InternalServerError] at hres
            subst hres
            simp at h400

/-- The unfollowed type of a directory child, as std::fs::FileType reports it
for DirEntry::file_type (symlinks are reported as symlink, not followed). -/
inductive FileType where
  | file
  | dir
  | symlink
  | other
deriving DecidableEq

deriving instance DecidableEq for Except

/-- std::fs::Metadata of a child: byte length, and the modified() call which
may itself fail. Timestamps are abstract Nat instants. -/
structure FsMetadata where
  len : Nat
  modified : Except IoErr Nat
deriving DecidableEq

/-- A raw directory child as the filesystem hands it to the program: its
name, and the two fallible metadata calls DirEntry::file_type and
DirEntry::metadata. -/
structure RawChild where
  name : String
  fileType : Except IoErr FileType
  metadata : Except IoErr FsMetadata
deriving DecidableEq

/-- The EntryType enum of main.rs. -/
inductive EntryType where
  | File
  | Directory
deriving DecidableEq

/-- Display impl for EntryType. -/
def EntryType.display : EntryType → String
  | EntryType.File => "file"
  | EntryType.Directory => "directory"

/-- chrono::DateTime<Local>; the From<SystemTime> conversion is the tagging
below. -/
structure LocalDateTime where
  t : Nat
deriving DecidableEq

/-- Conversion of a SystemTime instant into local time (the .into() of
main.rs line 109). -/
def SystemTime.toLocal (t : Nat) : LocalDateTime := ⟨t⟩

/-- Display of a local timestamp (abstract). -/
def LocalDateTime.format (d : LocalDateTime) : String := toString d.t

/-- The EntryDetail struct of main.rs. -/
structure EntryDetail where
  name : String
  path : Path
  entry_type : EntryType
  size : Option Nat
  date : Option LocalDateTime
deriving DecidableEq

/-- EntryDetail::new. -/
def EntryDetail.new (name : String) (path : Path) (entry_type : EntryType)
    (size : Option Nat) (date : Option LocalDateTime) : EntryDetail :=
  ⟨name, path, entry_type, size, date⟩

/-- pathdiff::diff_paths restricted to the shapes this program produces:
the difference exists exactly when base leads p, and is the remaining
segments; otherwise the caller's unwrap() panics. -/
def diff_paths (p base : Path) : Option Path :=
  if base.isPrefixOf p then some (p.drop base.length) else none

/-- Rendering of PathBuf::from("/").join(rel) as a string. -/
def renderAbsolute (rel : Path) : String := "/" ++ String.intercalate "/" rel

/-- EntryDetail::to_html (main.rs lines 84-93). Returns none when the
diff_paths unwrap would panic. -/
def EntryDetail.to_html (home : Path) (e : EntryDetail) : Option String :=
  (diff_paths e.path home).map (fun rel =>
    "<li><a href=\"" ++ renderAbsolute rel ++ "\" class=\"icon icon-"
      ++ e.entry_type.display ++ "\" title=\"" ++ e.name
      ++ "\"><span class=\"name\">" ++ e.name
      ++ "</span><span class=\"size\">"
      ++ (match e.size with
          | some s => toString s
          | none => "")
      ++ "</span><span class=\"date\">"
      ++ (match e.date with
          | some d => d.format
          | none => "")
      ++ "</span></a></li>")

/-- From<DirEntry> for EntryDetail (main.rs lines 96-113); target is the
directory being listed, so the child's path is target ++ [name]. Returns
none when file_type().unwrap() would panic. -/
def EntryDetail.fromChild (target : Path) (c : RawChild) : Option EntryDetail :=
  match c.fileType with
  | Except.error _ => none
  | Except.ok ft =>
    let et := if ft = FileType.dir ∨ ft = FileType.symlink then EntryType.Directory
      else EntryType.File
    let size := match et with
      | EntryType.File => (c.metadata.map FsMetadata.len).toOption
      | EntryType.Directory => none
    let date := match et with
      | EntryType.File =>
        ((c.metadata.bind FsMetadata.modified).toOption).map SystemTime.toLocal
      | EntryType.Directory => none
    some ⟨c.name, target ++ [c.name], et, size, date⟩

/-- Path::parent: none for the empty path, else drop the last segment. -/
def Path.parent : Path → Option Path
  | [] => none
  | p => some p.dropLast

/-- The filesystem as the listing handler sees it: the is_dir test on a
path, and read_dir, which may fail as a whole and whose items may fail
individually. -/
structure World where
  isDir : Path → Bool
  readDir : Path → Except IoErr (List (Except IoErr RawChild))

/-- Modelled from the spec: share_home_server::make_html::make_html lives in
the repository's library crate, which is not under src/; the spec says only
that the template receives the listing HTML plus the directory path and
returns the full page HTML, so it is modelled as the pair of its inputs. -/
structure Page where
  body : String
  dir : Path
deriving DecidableEq

/-- Modelled from the spec: the page template function (see Page). -/
def make_html (html : String) (target : Path) : Page := ⟨html, target⟩

/-- rocket::handler::Outcome as this handler uses it; Response::build()
defaults to status 200, so the success carries that status. -/
inductive Outcome where
  | Forward
  | Success (status : Nat) (page : Page)
deriving DecidableEq

/-- One pass of filter(|x| p(x.file_type().unwrap())): none if any child's
file_type call fails (the unwrap panics while the sort collects), else the
children whose type satisfies p. -/
def filterTypes (p : FileType → Bool) : List RawChild → Option (List RawChild)
  | [] => some []
  | c :: cs =>
    match c.fileType with
    | Except.error _ => none
    | Except.ok ft => (filterTypes p cs).map (fun r => if p ft then c :: r else r)

/-- The comparator of sorted_by(|x, y| Ord::cmp(&x.file_name(), &y.file_name())):
byte-wise ordinal comparison of names (on valid UTF-8, String order). -/
def nameRel (a b : RawChild) : Prop := a.name ≤ b.name

instance : DecidableRel nameRel := fun a b => inferInstanceAs (Decidable (a.name ≤ b.name))

instance : IsTotal RawChild nameRel := ⟨fun a b => le_total a.name b.name⟩

instance : IsTrans RawChild nameRel := ⟨fun _ _ _ h h2 => le_trans h h2⟩

/-- itertools sorted_by with the name comparator. The Rust sort is stable,
and a stable sort's output is determined by the comparator alone, so the
embedding may use insertion sort. -/
def sortByName (l : List RawChild) : List RawChild := l.insertionSort nameRel

/-- Rendering of one child in the listing pipeline:
EntryDetail::from(x).to_html(); none on a panic inside. -/
def renderChild (home target : Path) (c : RawChild) : Option String :=
  (EntryDetail.fromChild target c).bind (EntryDetail.to_html home)

/-- ServeIndex::handle (main.rs lines 120-141). home is the value every
dirs::home_dir() call returns; reqPath the normalized request path as
segments; none models a panic (Rust unwrap) anywhere in the body. -/
def ServeIndex.handle (home : Path) (reqPath : Path) (w : World) : Option Outcome :=
  let target := home ++ reqPath
  if ¬ w.isDir target then some Outcome.Forward
  else
    match (if target ≠ home then
        (Path.parent target).bind (fun par =>
          EntryDetail.to_html home (EntryDetail.new ".." par EntryType.Directory none none))
      else pure "") with
    | none => none
    | some headPart =>
      match (w.readDir target).toOption with
      | none => none
      | some raw1 =>
        match filterTypes (fun ft => ft == FileType.dir) (raw1.filterMap Except.toOption) with
        | none => none
        | some dirChildren =>
          match (sortByName dirChildren).mapM (renderChild home target) with
          | none => none
          | some dirFrags =>
            match (w.readDir target).toOption with
            | none => none
            | some raw2 =>
              match filterTypes (fun ft => ft == FileType.file) (raw2.filterMap Except.toOption) with
              | none => none
              | some fileChildren =>
                match (sortByName fileChildren).mapM (renderChild home target) with
                | none => none
                | some fileFrags =>
                  some (Outcome.Success 200
                    (make_html (headPart ++ String.join dirFrags ++ String.join fileFrags) target))

/-- Lines 124-130 of main.rs with every dirs::home_dir() call kept as a
separate read of the ambient environment: env k is what the k-th read
returns. Yields the resolved target and whether the parent ".." entry is
emitted (the target != home_dir() comparison, whose home_dir() is a second,
independent read). -/
def handleRootReads (env : Nat → Path) (reqPath : Path) : Path × Bool :=
  let target := env 0 ++ reqPath
  (target, decide (target ≠ env 1))

/-- Total rendering of a child that is known not to panic; used to state
what the listing body contains. -/
def fragmentOf (home target : Path) (c : RawChild) : String :=
  (renderChild home target c).getD ""

/-- The parent ".." fragment for a non-root target, as a total function. -/
def parentFrag (home reqPath : Path) : String :=
  ((Path.parent (home ++ reqPath)).bind (fun par =>
    EntryDetail.to_html home (EntryDetail.new ".." par EntryType.Directory none none))).getD ""

/-- Whether the file_type call of a child succeeds. -/
def typeOk (c : RawChild) : Bool :=
  match c.fileType with
  | Except.ok _ => true
  | Except.error _ => false

/-- Decoded form of a type filter on children whose file_type call succeeds. -/
def typeIs (p : FileType → Bool) (c : RawChild) : Bool :=
  match c.fileType with
  | Except.ok ft => p ft
  | Except.error _ => false

theorem eq_some_getD {α : Type} (o : Option α) (d : α) (h : o.isSome = true) :
    o = some (o.getD d) := by
  cases o with
  | none => simp at h
  | some a => rfl

theorem parent_eq_of_ne_nil (p : Path) (h : p ≠ []) : Path.parent p = some p.dropLast := by
  cases p with
  | nil => exact absurd rfl h
  | cons a l => rfl

theorem filterTypes_eq_filter (p : FileType → Bool) (l : List RawChild)
    (h : ∀ c ∈ l, typeOk c = true) :
    filterTypes p l = some (l.filter (typeIs p)) := by
  induction l with
  | nil => rfl
  | cons c cs ih =>
    have hc := h c (by simp)
    have hcs := ih (fun d hd => h d (by simp [hd]))
    cases hft : c.fileType with
    | error e => simp [typeOk, hft] at hc
    | ok ft =>
      cases hpf : p ft <;>
        simp [filterTypes, hft, hcs, List.filter_cons, typeIs, hpf]

theorem filterTypes_none_of_mem (p : FileType → Bool) (l : List RawChild)
    (c : RawChild) (e : IoErr) (hmem : c ∈ l) (hft : c.fileType = Except.error e) :
    filterTypes p l = none := by
  induction l with
  | nil => simp at hmem
  | cons d ds ih =>
    rcases List.mem_cons.mp hmem with h | h
    · subst h
      simp [filterTypes, hft]
    · cases hd : d.fileType with
      | error e2 => simp [filterTypes, hd]
      | ok ft => simp [filterTypes, hd, ih h]

theorem mapM_eq_map_of_some {α β : Type} (f : α → Option β) (g : α → β) (l : List α)
    (h : ∀ c ∈ l, f c = some (g c)) : l.mapM f = some (l.map g) := by
  induction l with
  | nil => rfl
  | cons c cs ih =>
    rw [List.mapM_cons, h c (by simp), ih (fun d hd => h d (by simp [hd]))]
    rfl

theorem renderChild_isSome (home rest : Path) (c : RawChild) (h : typeOk c = true) :
    (renderChild home (home ++ rest) c).isSome = true := by
  cases hft : c.fileType with
  | error e => simp [typeOk, hft] at h
  | ok ft =>
    simp [renderChild, EntryDetail.fromChild, hft, EntryDetail.to_html, diff_paths,
      List.append_assoc, List.isPrefixOf_iff_prefix]

theorem renderChild_eq_fragmentOf (home rest : Path) (c : RawChild) (h : typeOk c = true) :
    renderChild home (home ++ rest) c = some (fragmentOf home (home ++ rest) c) :=
  eq_some_getD _ "" (renderChild_isSome home rest c h)

theorem append_ne_left (home reqPath : Path) (h : reqPath ≠ []) : home ++ reqPath ≠ home := by
  intro heq
  have := congrArg List.length heq
  simp [List.length_append] at this
  exact h this

theorem parent_block_eval (home reqPath : Path) :
    (if home ++ reqPath ≠ home then
      (Path.parent (home ++ reqPath)).bind (fun par =>
        EntryDetail.to_html home (EntryDetail.new ".." par EntryType.Directory none none))
     else pure "") = some (if reqPath = [] then "" else parentFrag home reqPath) := by
  by_cases h : reqPath = []
  · subst h
    simp
  · rw [if_pos (append_ne_left home reqPath h), if_neg h]
    have hpar : Path.parent (home ++ reqPath) = some (home ++ reqPath.dropLast) := by
      rw [parent_eq_of_ne_nil _ (List.append_ne_nil_of_right_ne_nil home h),
        List.dropLast_append_of_ne_nil home h]
    have hsome : ((Path.parent (home ++ reqPath)).bind (fun par =>
        EntryDetail.to_html home (EntryDetail.new ".." par EntryType.Directory none none))).isSome
        = true := by
      rw [hpar]
      simp [EntryDetail.to_html, diff_paths, EntryDetail.new, List.isPrefixOf_iff_prefix]
    rw [eq_some_getD _ "" hsome]
    rfl

/-- What the listing body is when nothing panics: the parent fragment for
non-root directories, then the sorted directory fragments, then the sorted
file fragments, concatenated with no separator. -/
def listingBody (home reqPath : Path) (oks : List RawChild) : String :=
  (if reqPath = [] then "" else parentFrag home reqPath)
    ++ String.join ((sortByName (oks.filter (typeIs (fun ft => ft == FileType.dir)))).map
        (fragmentOf home (home ++ reqPath)))
    ++ String.join ((sortByName (oks.filter (typeIs (fun ft => ft == FileType.file)))).map
        (fragmentOf home (home ++ reqPath)))

theorem handle_ok_shape (home reqPath : Path) (w : World)
    (raw : List (Except IoErr RawChild))
    (hdir : w.isDir (home ++ reqPath) = true)
    (hread : w.readDir (home ++ reqPath) = Except.ok raw)
    (hok : ∀ c ∈ raw.filterMap Except.toOption, typeOk c = true) :
    ServeIndex.handle home reqPath w =
      some (Outcome.Success 200
        (make_html (listingBody home reqPath (raw.filterMap Except.toOption))
          (home ++ reqPath))) := by
  have hmapM : ∀ p : FileType → Bool,
      (sortByName ((raw.filterMap Except.toOption).filter (typeIs p))).mapM
          (renderChild home (home ++ reqPath)) =
        some ((sortByName ((raw.filterMap Except.toOption).filter (typeIs p))).map
          (fragmentOf home (home ++ reqPath))) := by
    intro p
    refine mapM_eq_map_of_some _ _ _ (fun c hc => renderChild_eq_fragmentOf home reqPath c ?_)
    have hmem : c ∈ (raw.filterMap Except.toOption).filter (typeIs p) := by
      have hperm := List.perm_insertionSort nameRel
        ((raw.filterMap Except.toOption).filter (typeIs p))
      exact hperm.mem_iff.mp (by simpa [sortByName] using hc)
    exact hok c (List.mem_of_mem_filter hmem)
  unfold ServeIndex.handle
  simp only [hdir, hread, parent_block_eval home reqPath, Except.toOption,
    filterTypes_eq_filter _ _ hok, hmapM, listingBody]
  simp

/-- C1: for every directory listed, the body is the ".." parent fragment
exactly when the directory is not the root itself, then the fragments of all
immediate subdirectory children sorted ascending by name (case-sensitive
ordinal order), then the fragments of all immediate file children sorted the
same way; the groups are never interleaved and the fragments are joined with
no separator. -/
theorem listing_order (home reqPath : Path) (w : World)
    (raw : List (Except IoErr RawChild))
    (hdir : w.isDir (home ++ reqPath) = true)
    (hread : w.readDir (home ++ reqPath) = Except.ok raw)
    (hok : ∀ c ∈ raw.filterMap Except.toOption, typeOk c = true) :
    ∃ ds fl : List RawChild,
      List.Perm ds ((raw.filterMap Except.toOption).filter
        (typeIs (fun ft => ft == FileType.dir))) ∧
      List.Perm fl ((raw.filterMap Except.toOption).filter
        (typeIs (fun ft => ft == FileType.file))) ∧
      List.Pairwise (fun a b : RawChild => a.name ≤ b.name) ds ∧
      List.Pairwise (fun a b : RawChild => a.name ≤ b.name) fl ∧
      ServeIndex.handle home reqPath w =
        some (Outcome.Success 200 (make_html
          ((if reqPath = [] then "" else parentFrag home reqPath)
            ++ String.join (ds.map (fragmentOf home (home ++ reqPath)))
            ++ String.join (fl.map (fragmentOf home (home ++ reqPath))))
          (home ++ reqPath))) := by
  refine ⟨sortByName ((raw.filterMap Except.toOption).filter
      (typeIs (fun ft => ft == FileType.dir))),
    sortByName ((raw.filterMap Except.toOption).filter
      (typeIs (fun ft => ft == FileType.file))),
    List.perm_insertionSort nameRel _, List.perm_insertionSort nameRel _,
    List.sorted_insertionSort nameRel _, List.sorted_insertionSort nameRel _, ?_⟩
  simpa [listingBody] using handle_ok_shape home reqPath w raw hdir hread hok

/-- A small concrete world: home h with directory d holding a subdirectory b
and files z.txt and a.txt. -/
def exampleWorld : World :=
  ⟨fun p => p == ["h", "d"],
   fun _ => Except.ok [
     Except.ok ⟨"z.txt", Except.ok FileType.file, Except.ok ⟨3, Except.ok 11⟩⟩,
     Except.ok ⟨"b", Except.ok FileType.dir, Except.error "x"⟩,
     Except.ok ⟨"a.txt", Except.ok FileType.file, Except.error "y"⟩]⟩

/-- Closed instance of listing_order at exampleWorld. -/
theorem listing_order_witness :
    ∃ ds fl : List RawChild,
      List.Perm ds ((([
        Except.ok ⟨"z.txt", Except.ok FileType.file, Except.ok ⟨3, Except.ok 11⟩⟩,
        Except.ok ⟨"b", Except.ok FileType.dir, Except.error "x"⟩,
        Except.ok ⟨"a.txt", Except.ok FileType.file, Except.error "y"⟩] :
          List (Except IoErr RawChild)).filterMap Except.toOption).filter
        (typeIs (fun ft => ft == FileType.dir))) ∧
      List.Perm fl ((([
        Except.ok ⟨"z.txt", Except.ok FileType.file, Except.ok ⟨3, Except.ok 11⟩⟩,
        Except.ok ⟨"b", Except.ok FileType.dir, Except.error "x"⟩,
        Except.ok ⟨"a.txt", Except.ok FileType.file, Except.error "y"⟩] :
          List (Except IoErr RawChild)).filterMap Except.toOption).filter
        (typeIs (fun ft => ft == FileType.file))) ∧
      List.Pairwise (fun a b : RawChild => a.name ≤ b.name) ds ∧
      List.Pairwise (fun a b : RawChild => a.name ≤ b.name) fl ∧
      ServeIndex.handle ["h"] ["d"] exampleWorld =
        some (Outcome.Success 200 (make_html
          ((if (["d"] : Path) = [] then "" else parentFrag ["h"] ["d"])
            ++ String.join (ds.map (fragmentOf ["h"] (["h"] ++ ["d"])))
            ++ String.join (fl.map (fragmentOf ["h"] (["h"] ++ ["d"]))))
          (["h"] ++ ["d"]))) :=
  listing_order ["h"] ["d"] exampleWorld _ (by decide) rfl (by decide)

/-- A world where every path is a directory but enumeration fails. -/
def deniedWorld : World := ⟨fun _ => true, fun _ => Except.error "Permission denied"⟩

/-- C6 counterexample: a resolved path that is a directory whose enumeration
fails makes the handler abort (read_dir().unwrap() panics) instead of
responding 200 with the listing page. -/
theorem dir_not_always_200 :
    deniedWorld.isDir (["h"] ++ []) = true ∧
    ServeIndex.handle ["h"] [] deniedWorld = none := by
  exact ⟨rfl, by decide⟩

/-- C6 amended: a non-directory target always makes the handler forward so
the static-file collaborator can try the request; a directory target yields
200 with the listing page provided the enumeration and the per-child
file_type reads succeed; if the enumeration itself fails the handler aborts
with a server fault instead. -/
theorem forward_unless_dir (home reqPath : Path) (w : World) :
    (w.isDir (home ++ reqPath) = false →
      ServeIndex.handle home reqPath w = some Outcome.Forward) ∧
    (∀ raw, w.isDir (home ++ reqPath) = true →
      w.readDir (home ++ reqPath) = Except.ok raw →
      (∀ c ∈ raw.filterMap Except.toOption, typeOk c = true) →
      ∃ page, ServeIndex.handle home reqPath w = some (Outcome.Success 200 page)) ∧
    (∀ e, w.isDir (home ++ reqPath) = true →
      w.readDir (home ++ reqPath) = Except.error e →
      ServeIndex.handle home reqPath w = none) := by
  refine ⟨fun h => ?_, fun raw hdir hread hok => ?_, fun e hdir hread => ?_⟩
  · unfold ServeIndex.handle
    simp [h]
  · exact ⟨_, handle_ok_shape home reqPath w raw hdir hread hok⟩
  · unfold ServeIndex.handle
    simp only [hdir, hread, parent_block_eval home reqPath, Except.toOption]
    simp

/-- Closed instance of forward_unless_dir: all three branches at concrete
worlds. -/
theorem forward_unless_dir_witness :
    (ServeIndex.handle ["h"] ["x"] exampleWorld = some Outcome.Forward) ∧
    (∃ page, ServeIndex.handle ["h"] ["d"] exampleWorld =
      some (Outcome.Success 200 page)) ∧
    (ServeIndex.handle ["g"] [] deniedWorld = none) := by
  refine ⟨?_, ?_, ?_⟩
  · exact (forward_unless_dir ["h"] ["x"] exampleWorld).1 (by decide)
  · exact (forward_unless_dir ["h"] ["d"] exampleWorld).2.1 _ (by decide) rfl (by decide)
  · exact (forward_unless_dir ["g"] [] deniedWorld).2.2 "Permission denied" rfl rfl

/-- A world whose root holds one child with a failing file_type (stat) call
and one healthy file. -/
def statFailWorld : World :=
  ⟨fun p => p == ["h"],
   fun _ => Except.ok [
     Except.ok ⟨"bad", Except.error "eio", Except.ok ⟨1, Except.ok 0⟩⟩,
     Except.ok ⟨"good.txt", Except.ok FileType.file, Except.ok ⟨2, Except.ok 5⟩⟩]⟩

/-- The same world with the failing child absent. -/
def statFailWorldRemoved : World :=
  ⟨fun p => p == ["h"],
   fun _ => Except.ok [
     Except.ok ⟨"good.txt", Except.ok FileType.file, Except.ok ⟨2, Except.ok 5⟩⟩]⟩

/-- C5 counterexample: a failing per-child stat call (file_type) does not
merely hide that child: it aborts the whole listing (unwrap panic), while
the same directory without the failing child lists fine. -/
theorem stat_failure_is_fatal :
    ServeIndex.handle ["h"] [] statFailWorld = none ∧
    ∃ page, ServeIndex.handle ["h"] [] statFailWorldRemoved =
      some (Outcome.Success 200 page) := by
  refine ⟨by decide, ?_⟩
  exact ⟨_, handle_ok_shape ["h"] [] statFailWorldRemoved _ (by decide) rfl (by decide)⟩

/-- C5 amended: an error yielded by the directory iterator for an entry is
silently skipped, so only that entry disappears from the listing; an error
from a child's metadata call leaves the child listed with size and date
absent; but an error from a child's file_type (stat) call aborts the whole
listing. -/
theorem per_entry_failure_modes :
    (∀ home reqPath (w : World),
      ServeIndex.handle home reqPath
        ⟨w.isDir, fun p => (w.readDir p).map (fun l =>
          (l.filterMap Except.toOption).map Except.ok)⟩ =
      ServeIndex.handle home reqPath w) ∧
    (∀ target (c : RawChild) ft e, c.fileType = Except.ok ft →
      c.metadata = Except.error e →
      EntryDetail.fromChild target c = some (EntryDetail.new c.name (target ++ [c.name])
        (if ft = FileType.dir ∨ ft = FileType.symlink then EntryType.Directory
          else EntryType.File)
        none none)) ∧
    (∀ home reqPath (w : World) raw (c : RawChild) e,
      w.isDir (home ++ reqPath) = true →
      w.readDir (home ++ reqPath) = Except.ok raw →
      Except.ok c ∈ raw → c.fileType = Except.error e →
      ServeIndex.handle home reqPath w = none) := by
  refine ⟨fun home reqPath w => ?_, fun target c ft e hft hmeta => ?_,
    fun home reqPath w raw c e hdir hread hmem hft => ?_⟩
  · unfold ServeIndex.handle
    cases hrd : w.readDir (home ++ reqPath) with
    | error er => simp [hrd, Except.map, Except.toOption]
    | ok l =>
      simp [hrd, Except.map, List.filterMap_map, Function.comp_def, Except.toOption,
        List.filterMap_some]
  · simp only [EntryDetail.fromChild, hft, hmeta, EntryDetail.new]
    by_cases hcase : ft = FileType.dir ∨ ft = FileType.symlink <;>
      simp [hcase, Except.map, Except.toOption, Except.bind]
  · have hmem2 : c ∈ raw.filterMap Except.toOption :=
      List.mem_filterMap.mpr ⟨Except.ok c, hmem, rfl⟩
    unfold ServeIndex.handle
    simp only [hdir, hread, parent_block_eval home reqPath, Except.toOption,
      filterTypes_none_of_mem _ _ c e hmem2 hft]
    simp

/-- Closed instance of per_entry_failure_modes: iterator-error skipping at a
concrete world, a metadata failure rendered with absent fields, and a
concrete fatal stat failure. -/
theorem per_entry_failure_modes_witness :
    (ServeIndex.handle ["h"] []
        ⟨statFailWorldRemoved.isDir, fun p => (statFailWorldRemoved.readDir p).map (fun l =>
          (l.filterMap Except.toOption).map Except.ok)⟩ =
      ServeIndex.handle ["h"] [] statFailWorldRemoved) ∧
    (EntryDetail.fromChild ["h", "d"] ⟨"a.txt", Except.ok FileType.file, Except.error "y"⟩ =
      some (EntryDetail.new "a.txt" ["h", "d", "a.txt"]
        (if FileType.file = FileType.dir ∨ FileType.file = FileType.symlink then
          EntryType.Directory else EntryType.File) none none)) ∧
    (ServeIndex.handle ["h"] [] statFailWorld = none) := by
  refine ⟨per_entry_failure_modes.1 ["h"] [] statFailWorldRemoved, ?_, ?_⟩
  · exact per_entry_failure_modes.2.1 ["h", "d"]
      ⟨"a.txt", Except.ok FileType.file, Except.error "y"⟩ FileType.file "y" rfl rfl
  · exact per_entry_failure_modes.2.2 ["h"] [] statFailWorld _
      ⟨"bad", Except.error "eio", Except.ok ⟨1, Except.ok 0⟩⟩ "eio"
      (by decide) rfl (by decide) rfl

/-- A symlink child (its metadata call failing does not matter for the
claim). -/
def symChild : RawChild := ⟨"s", Except.ok FileType.symlink, Except.error "m"⟩

/-- A world whose root holds exactly one child, the symlink symChild. -/
def symlinkWorld : World :=
  ⟨fun p => p == ["h"], fun _ => Except.ok [Except.ok symChild]⟩

/-- C4: the entry model does classify a symlink child as Directory and would
render it with the icon-directory class, but the listing handler's is_dir
and is_file filters both reject the unfollowed symlink file type, so the
symlink entry never appears in the listing: a directory whose only child is
a symlink renders an empty listing body. -/
theorem symlink_dropped_from_listing :
    EntryDetail.fromChild ["h"] symChild =
      some (EntryDetail.new "s" ["h", "s"] EntryType.Directory none none) ∧
    EntryDetail.to_html ["h"] (EntryDetail.new "s" ["h", "s"] EntryType.Directory none none) =
      some ("<li><a href=\"/s\" class=\"icon icon-directory\" title=\"s\"><span class=\"name\">s</span><span class=\"size\"></span><span class=\"date\"></span></a></li>") ∧
    ServeIndex.handle ["h"] [] symlinkWorld =
      some (Outcome.Success 200 (make_html "" ["h"])) := by
  exact ⟨by decide, by decide, by decide⟩

/-- C9: a File-classified entry gets size from metadata byte length when
readable and absent otherwise, and modified from the last-write timestamp
converted to local time when readable and absent otherwise; a
Directory-classified entry never carries size or date; and in the rendered
fragment an absent optional renders as the empty string, never a
placeholder. -/
theorem entry_fields_and_render :
    (∀ target (c : RawChild) ft, c.fileType = Except.ok ft →
      (ft = FileType.dir ∨ ft = FileType.symlink) →
      EntryDetail.fromChild target c =
        some (EntryDetail.new c.name (target ++ [c.name]) EntryType.Directory none none)) ∧
    (∀ target (c : RawChild) ft m t, c.fileType = Except.ok ft →
      ¬(ft = FileType.dir ∨ ft = FileType.symlink) →
      c.metadata = Except.ok m → m.modified = Except.ok t →
      EntryDetail.fromChild target c =
        some (EntryDetail.new c.name (target ++ [c.name]) EntryType.File (some m.len)
          (some (SystemTime.toLocal t)))) ∧
    (∀ target (c : RawChild) ft m e, c.fileType = Except.ok ft →
      ¬(ft = FileType.dir ∨ ft = FileType.symlink) →
      c.metadata = Except.ok m → m.modified = Except.error e →
      EntryDetail.fromChild target c =
        some (EntryDetail.new c.name (target ++ [c.name]) EntryType.File (some m.len) none)) ∧
    (∀ target (c : RawChild) ft e, c.fileType = Except.ok ft →
      ¬(ft = FileType.dir ∨ ft = FileType.symlink) →
      c.metadata = Except.error e →
      EntryDetail.fromChild target c =
        some (EntryDetail.new c.name (target ++ [c.name]) EntryType.File none none)) ∧
    (∀ home (e : EntryDetail), e.size = none →
      EntryDetail.to_html home e = (diff_paths e.path home).map (fun rel =>
        "<li><a href=\"" ++ renderAbsolute rel ++ "\" class=\"icon icon-"
          ++ e.entry_type.display ++ "\" title=\"" ++ e.name
          ++ "\"><span class=\"name\">" ++ e.name
          ++ "</span><span class=\"size\">" ++ "" ++ "</span><span class=\"date\">"
          ++ (match e.date with
              | some d => d.format
              | none => "")
          ++ "</span></a></li>")) ∧
    (∀ home (e : EntryDetail), e.date = none →
      EntryDetail.to_html home e = (diff_paths e.path home).map (fun rel =>
        "<li><a href=\"" ++ renderAbsolute rel ++ "\" class=\"icon icon-"
          ++ e.entry_type.display ++ "\" title=\"" ++ e.name
          ++ "\"><span class=\"name\">" ++ e.name
          ++ "</span><span class=\"size\">"
          ++ (match e.size with
              | some s => toString s
              | none => "")
          ++ "</span><span class=\"date\">" ++ ""
          ++ "</span></a></li>")) := by
  refine ⟨fun target c ft hft hd => ?_, fun target c ft m t hft hd hm hmod => ?_,
    fun target c ft m e hft hd hm hmod => ?_, fun target c ft e hft hd hm => ?_,
    fun home e hsz => ?_, fun home e hdt => ?_⟩
  · simp [EntryDetail.fromChild, hft, hd, EntryDetail.new]
  · simp [EntryDetail.fromChild, hft, hd, hm, hmod, EntryDetail.new, Except.map,
      Except.bind, Except.toOption]
  · simp [EntryDetail.fromChild, hft, hd, hm, hmod, EntryDetail.new, Except.map,
      Except.bind, Except.toOption]
  · simp [EntryDetail.fromChild, hft, hd, hm, EntryDetail.new, Except.map,
      Except.bind, Except.toOption]
  · simp [EntryDetail.to_html, hsz]
  · simp [EntryDetail.to_html, hdt]

/-- Closed instance of entry_fields_and_render at concrete children. -/
theorem entry_fields_and_render_witness :
    (EntryDetail.fromChild ["h"] ⟨"lnk", Except.ok FileType.symlink, Except.error "m"⟩ =
      some (EntryDetail.new "lnk" ["h", "lnk"] EntryType.Directory none none)) ∧
    (EntryDetail.fromChild ["h"] ⟨"f1", Except.ok FileType.file, Except.ok ⟨3, Except.ok 11⟩⟩ =
      some (EntryDetail.new "f1" ["h", "f1"] EntryType.File (some 3)
        (some (SystemTime.toLocal 11)))) ∧
    (EntryDetail.fromChild ["h"] ⟨"f2", Except.ok FileType.file, Except.ok ⟨4, Except.error "t"⟩⟩ =
      some (EntryDetail.new "f2" ["h", "f2"] EntryType.File (some 4) none)) ∧
    (EntryDetail.fromChild ["h"] ⟨"f3", Except.ok FileType.file, Except.error "y"⟩ =
      some (EntryDetail.new "f3" ["h", "f3"] EntryType.File none none)) ∧
    (EntryDetail.to_html ["h"]
        (EntryDetail.new "f4" ["h", "f4"] EntryType.File none (some (SystemTime.toLocal 7))) =
      (diff_paths ["h", "f4"] ["h"]).map (fun rel =>
        "<li><a href=\"" ++ renderAbsolute rel ++ "\" class=\"icon icon-"
          ++ EntryType.File.display ++ "\" title=\"" ++ "f4"
          ++ "\"><span class=\"name\">" ++ "f4"
          ++ "</span><span class=\"size\">" ++ "" ++ "</span><span class=\"date\">"
          ++ (SystemTime.toLocal 7).format
          ++ "</span></a></li>")) ∧
    (EntryDetail.to_html ["h"] (EntryDetail.new "f2" ["h", "f2"] EntryType.File (some 4) none) =
      (diff_paths ["h", "f2"] ["h"]).map (fun rel =>
        "<li><a href=\"" ++ renderAbsolute rel ++ "\" class=\"icon icon-"
          ++ EntryType.File.display ++ "\" title=\"" ++ "f2"
          ++ "\"><span class=\"name\">" ++ "f2"
          ++ "</span><span class=\"size\">" ++ toString 4 ++ "</span><span class=\"date\">" ++ ""
          ++ "</span></a></li>")) := by
  refine ⟨?_, ?_, ?_, ?_, ?_, ?_⟩
  · exact entry_fields_and_render.1 ["h"]
      ⟨"lnk", Except.ok FileType.symlink, Except.error "m"⟩ FileType.symlink rfl (by decide)
  · exact entry_fields_and_render.2.1 ["h"]
      ⟨"f1", Except.ok FileType.file, Except.ok ⟨3, Except.ok 11⟩⟩ FileType.file
      ⟨3, Except.ok 11⟩ 11 rfl (by decide) rfl rfl
  · exact entry_fields_and_render.2.2.1 ["h"]
      ⟨"f2", Except.ok FileType.file, Except.ok ⟨4, Except.error "t"⟩⟩ FileType.file
      ⟨4, Except.error "t"⟩ "t" rfl (by decide) rfl rfl
  · exact entry_fields_and_render.2.2.2.1 ["h"]
      ⟨"f3", Except.ok FileType.file, Except.error "y"⟩ FileType.file "y" rfl (by decide) rfl
  · exact entry_fields_and_render.2.2.2.2.1 ["h"]
      (EntryDetail.new "f4" ["h", "f4"] EntryType.File none (some (SystemTime.toLocal 7))) rfl
  · exact entry_fields_and_render.2.2.2.2.2 ["h"]
      (EntryDetail.new "f2" ["h", "f2"] EntryType.File (some 4) none) rfl

/-- C8 counterexample: the root is read from the ambient environment at each
use site; with an environment whose successive reads differ, the root
listing's parent-link decision flips relative to a root resolved once, so
the root is observably re-read per call rather than fixed at startup. -/
theorem root_reread_observable :
    ((fun n => if n = 0 then ["h"] else ["g"]) : Nat → Path) 0 ≠
      ((fun n => if n = 0 then ["h"] else ["g"]) : Nat → Path) 1 ∧
    (handleRootReads (fun n => if n = 0 then ["h"] else ["g"]) []).2 = true ∧
    (handleRootReads (fun _ => ["h"]) []).2 = false := by decide

/-- C8 amended: the root is obtained by a fresh dirs::home_dir() read of the
ambient environment at each use site, not resolved once and injected; when
the environment never changes (every read returns the same r, the actual
situation for an unmutated HOME), the computation coincides with that of a
fixed root r. -/
theorem root_constant_env (env : Nat → Path) (r : Path) (reqPath : Path)
    (h : ∀ n, env n = r) :
    handleRootReads env reqPath = handleRootReads (fun _ => r) reqPath ∧
    handleRootReads (fun _ => r) reqPath = (r ++ reqPath, decide (r ++ reqPath ≠ r)) := by
  constructor
  · simp [handleRootReads, h]
  · rfl

/-- Closed instance of root_constant_env. -/
theorem root_constant_env_witness :
    handleRootReads (fun _ => ["h"]) ["d"] = handleRootReads (fun _ => ["h"]) ["d"] ∧
    handleRootReads (fun _ => ["h"]) ["d"] =
      (["h"] ++ ["d"], decide (["h"] ++ ["d"] ≠ ["h"])) :=
  root_constant_env (fun _ => ["h"]) ["h"] ["d"] (fun _ => rfl)

/-- Closed instance of upload_badrequest_no_write: a missing-boundary 400
leaves the disk exactly as it was. -/
theorem upload_badrequest_no_write_witness :
    (resolve_post ["h"] [] [] (Except.ok []) SaveBehavior.Full
      (fun _ => some [9])).2 = (fun _ => some [9]) :=
  upload_badrequest_no_write ["h"] [] [] (Except.ok []) SaveBehavior.Full
    (fun _ => some [9]) ⟨400, "Content-Type: form-data without boundary"⟩ rfl rfl
